import Mathlib

/-!
Verification of the source-instrumentation engine of the terminator repository.

The engine is a family of Python scripts that textually locate Rust function
definitions inside a buffer and splice telemetry statements into them.  This
development gives a shallow embedding of the relevant scripts over buffers
modelled as `List Char`:

* `add_basic_telemetry_all_tools.py`  → `add_basic_telemetry`, `runBasicBatch`
* `add_telemetry_all_functions.py`    → `add_comprehensive_telemetry`, `compBatch`
* `batch_add_telemetry.py`            → `add_telemetry_to_function`
* `add_all_telemetry.py`              → `add_telemetry_to_lines`
* `add_telemetry_remaining_tools.py`  → `rem_add_comprehensive_telemetry`
* `final_cleanup_telemetry.py`        → `fix_toggled`

Python regular expressions appearing in those scripts are hand-compiled to
deterministic character-level matchers (the patterns involved need no general
backtracking: every greedy piece is followed by a literal that cannot occur
inside the piece, so the match is unique).  Recursions that walk a shrinking
buffer are written with an explicit fuel argument so that all definitions
compute by kernel reduction; the top-level wrappers supply fuel that is ample
for every input.
-/

set_option maxRecDepth 20000

namespace Terminator

/-- A source buffer: the file content as an indexable character sequence. -/
abbrev Buf := List Char

/-- The opening brace character (written via its code point to keep string
literals free of raw braces). -/
def lbrace : Char := Char.ofNat 123

/-- The closing brace character. -/
def rbrace : Char := Char.ofNat 125

/-- Python `\s` on the ASCII range: space, tab, newline, carriage return,
vertical tab, form feed. -/
def wsChar (c : Char) : Bool :=
  c = ' ' || c = '\t' || c = '\n' || c = '\r' || c = '\x0b' || c = '\x0c'

/-- Length of the maximal whitespace run at the head of the buffer
(the unique extent of a greedy `\s*`). -/
def wsCount : Buf → Nat
  | [] => 0
  | c :: r => if wsChar c then wsCount r + 1 else 0

/-- Python's substring test `needle in hay`. -/
def containsSub (needle : Buf) : Buf → Bool
  | [] => needle.isEmpty
  | c :: rest => needle.isPrefixOf (c :: rest) || containsSub needle rest

/-- Python slice `l[a:b]` for non-negative indices (clamping at the ends). -/
def pySliceNat (l : Buf) (a b : Nat) : Buf := (l.take b).drop a

/-- Normalisation of one (possibly negative) Python slice index. -/
def pyIdx (len : Nat) (i : Int) : Nat :=
  if i < 0 then ((len : Int) + i).toNat else min i.toNat len

/-- Python slice `l[a:b]` with full negative-index semantics. -/
def pySliceInt (l : Buf) (a b : Int) : Buf :=
  (l.take (pyIdx l.length b)).drop (pyIdx l.length a)

/-- Python `content[:pos] + t + content[pos:]`: splice `t` into `content` at
offset `pos`. -/
def splice (content : Buf) (pos : Nat) (t : Buf) : Buf :=
  content.take pos ++ t ++ content.drop pos

/-- Python `content.find(c, start)`: offset of the first occurrence of `c` at
or after `start`. -/
def findCharFrom (content : Buf) (c : Char) (start : Nat) : Option Nat :=
  match (content.drop start).findIdx? (· = c) with
  | some i => some (start + i)
  | none => none

/-- Index of the last newline in a list, if any: the backtracking result of a
greedy `\s*` that must be followed by `\n` inside a whitespace run. -/
def lastNlIdx : Buf → Option Nat
  | [] => none
  | c :: r =>
    match lastNlIdx r with
    | some i => some (i + 1)
    | none => if c = '\n' then some 0 else none

/-- Match a literal at the head of the buffer, returning the consumed length. -/
def matchLit (lit s : Buf) : Option Nat :=
  if lit.isPrefixOf s then some lit.length else none

/-- Regex fragment `[^)]*\)`: consume up to and including the first `)`. -/
def toRparen : Buf → Option Nat
  | [] => none
  | c :: r => if c = ')' then some 1 else (toRparen r).map (· + 1)

/-! ### Signature matchers

The scripts locate function signatures with `re.finditer`.  Three pattern
shapes occur; each is compiled to a matcher that, applied to a buffer suffix,
returns the length of the (unique) match anchored at its head. -/

/-- Shared tail `\s*\([^)]*\)\s*->\s*Result<CallToolResult,\s*McpError>\s*` up
to and including the opening brace. -/
def sigTailBrace (s : Buf) : Option Nat := do
  let w1 := wsCount s
  let s1 := s.drop w1
  let l1 ← matchLit "(".toList s1
  let s2 := s1.drop l1
  let p ← toRparen s2
  let s3 := s2.drop p
  let w2 := wsCount s3
  let s4 := s3.drop w2
  let l2 ← matchLit "->".toList s4
  let s5 := s4.drop l2
  let w3 := wsCount s5
  let s6 := s5.drop w3
  let l3 ← matchLit "Result<CallToolResult,".toList s6
  let s7 := s6.drop l3
  let w4 := wsCount s7
  let s8 := s7.drop w4
  let l4 ← matchLit "McpError>".toList s8
  let s9 := s8.drop l4
  let w5 := wsCount s9
  let s10 := s9.drop w5
  let l5 ← matchLit [lbrace] s10
  pure (w1 + l1 + p + w2 + l2 + w3 + l3 + w4 + l4 + w5 + l5)

/-- Tail extended by the final `\s*\n` of the basic/comprehensive patterns:
the greedy `\s*` backtracks to the last newline of the whitespace run. -/
def sigTailNl (s : Buf) : Option Nat := do
  let n ← sigTailBrace s
  let rest := s.drop n
  let run := rest.take (wsCount rest)
  let j ← lastNlIdx run
  pure (n + j + 1)

/-- Matcher for `(?:pub )?async fn NAME` followed by `sigTailNl`
(pattern of `add_basic_telemetry_all_tools.py`). -/
def matchBasicAt (name : Buf) (s : Buf) : Option Nat :=
  let core : Buf → Option Nat := fun t => do
    let l1 ← matchLit ("async fn ".toList ++ name) t
    let l2 ← sigTailNl (t.drop l1)
    pure (l1 + l2)
  match matchLit "pub ".toList s with
  | some lp =>
    match core (s.drop lp) with
    | some lc => some (lp + lc)
    | none => core s
  | none => core s

/-- Matcher for `(?:pub\s+)?async\s+fn\s+NAME` followed by `sigTailNl`
(pattern of `add_telemetry_all_functions.py`). -/
def matchCompAt (name : Buf) (s : Buf) : Option Nat :=
  let core : Buf → Option Nat := fun t => do
    let l1 ← matchLit "async".toList t
    let t1 := t.drop l1
    let w1 := wsCount t1
    if w1 = 0 then none else do
      let t2 := t1.drop w1
      let l2 ← matchLit "fn".toList t2
      let t3 := t2.drop l2
      let w2 := wsCount t3
      if w2 = 0 then none else do
        let t4 := t3.drop w2
        let l3 ← matchLit name t4
        let l4 ← sigTailNl (t4.drop l3)
        pure (l1 + w1 + l2 + w2 + l3 + l4)
  match matchLit "pub".toList s with
  | some lp =>
    let w := wsCount (s.drop lp)
    if w = 0 then core s
    else
      match core (s.drop (lp + w)) with
      | some lc => some (lp + w + lc)
      | none => core s
  | none => core s

/-- Matcher for `(?:pub )?async fn NAME` followed by `sigTailBrace`, ending
right after the opening brace (pattern of `batch_add_telemetry.py`). -/
def matchBatchAt (name : Buf) (s : Buf) : Option Nat :=
  let core : Buf → Option Nat := fun t => do
    let l1 ← matchLit ("async fn ".toList ++ name) t
    let l2 ← sigTailBrace (t.drop l1)
    pure (l1 + l2)
  match matchLit "pub ".toList s with
  | some lp =>
    match core (s.drop lp) with
    | some lc => some (lp + lc)
    | none => core s
  | none => core s

/-! ### finditer -/

/-- Fuel-driven `re.finditer`: scan left to right, emit `(start, end, data)`
for each non-overlapping leftmost match, resume after each match.  All the
patterns used here consume at least one character, so a returned length of
zero (impossible) is treated as a failed match. -/
def finditerAux {α : Type} (m : Buf → Option (Nat × α)) :
    Nat → Buf → Nat → List (Nat × Nat × α)
  | 0, _, _ => []
  | Nat.succ fuel, s, pos =>
    match s with
    | [] => []
    | c :: rest =>
      match m (c :: rest) with
      | some (Nat.succ len, a) =>
        (pos, pos + len + 1, a) :: finditerAux m fuel (rest.drop len) (pos + len + 1)
      | _ => finditerAux m fuel rest (pos + 1)

/-- `re.finditer` over a whole buffer starting at offset `pos`. -/
def finditerG {α : Type} (m : Buf → Option (Nat × α)) (s : Buf) (pos : Nat) :
    List (Nat × Nat × α) :=
  finditerAux m (s.length + 1) s pos

/-- `matchBasicAt` packaged for `finditerG`. -/
def matchBasicG (f : Buf) (s : Buf) : Option (Nat × Unit) :=
  (matchBasicAt f s).map (fun l => (l, ()))

/-- `matchCompAt` packaged for `finditerG`. -/
def matchCompG (f : Buf) (s : Buf) : Option (Nat × Unit) :=
  (matchCompAt f s).map (fun l => (l, ()))

/-- `matchBatchAt` packaged for `finditerG`. -/
def matchBatchG (f : Buf) (s : Buf) : Option (Nat × Unit) :=
  (matchBatchAt f s).map (fun l => (l, ()))

/-! ### Success-pattern matchers -/

/-- Matcher for `(\s+)(Ok\(CallToolResult::success\([^)]*\)\))`: returns the
total length and the length of the leading whitespace group. -/
def matchOkAt (s : Buf) : Option (Nat × Nat) :=
  let k := wsCount s
  if k = 0 then none
  else do
    let s1 := s.drop k
    let l1 ← matchLit "Ok(CallToolResult::success(".toList s1
    let s2 := s1.drop l1
    let p ← toRparen s2
    let s3 := s2.drop p
    let l2 ← matchLit ")".toList s3
    pure (k + l1 + p + l2, k)

/-- Matcher for `(\n\s*)(Ok\(CallToolResult::success\()` of
`batch_add_telemetry.py`. -/
def matchOkBatchAt (s : Buf) : Option (Nat × Unit) :=
  match s with
  | [] => none
  | c :: r =>
    if c = '\n' then do
      let k := wsCount r
      let l ← matchLit "Ok(CallToolResult::success(".toList (r.drop k)
      pure (1 + k + l, ())
    else none

/-! ### Body Extractor (brace scanning) -/

/-- The brace-depth scan shared by the scripts: starting at depth `cnt`
(the scripts start at 1, just past the consumed opening brace), walk forward
incrementing on `{` and decrementing on `}`; the position where the depth
first returns to zero is the function end. -/
def braceScanAux : Buf → Nat → Nat → Option Nat
  | [], _, _ => none
  | c :: rest, pos, cnt =>
    if c = lbrace then braceScanAux rest (pos + 1) (cnt + 1)
    else if c = rbrace then
      if cnt = 1 then some pos else braceScanAux rest (pos + 1) (cnt - 1)
    else braceScanAux rest (pos + 1) cnt

/-- Position of the closing brace of the body that starts (at depth 1) at
offset `start` of `content`. -/
def braceScan (content : Buf) (start : Nat) : Option Nat :=
  braceScanAux (content.drop start) start 1

/-! ### Shared markers and outcome type -/

/-- The instrumentation marker: presence of this sentinel substring near a
signature means the function is already instrumented. -/
def stepSpanMarker : Buf := "StepSpan::new".toList

/-- The completion marker checked before the success pattern. -/
def spanEndMarker : Buf := "span.end()".toList

/-- Per-function (per-match) outcome of one batch entry, mirroring the
scripts' printed report lines. -/
inductive Outcome
  /-- signature pattern absent from the buffer -/
  | notFound
  /-- span-creation marker present in the guard window; function skipped whole -/
  | skipped
  /-- telemetry inserted (span creation and completion) -/
  | instrumented
  /-- body end not found by the brace scan -/
  | noEnd
  /-- no success pattern in the body; completion omitted -/
  | noOk
  /-- completion marker already present before the success pattern -/
  | skippedEnd
  deriving DecidableEq, Repr

/-! ## Model of `add_basic_telemetry_all_tools.py` -/

/-- The span-creation statement inserted right after the opening brace. -/
def spanLineB (f : Buf) : Buf :=
  "        let mut span = StepSpan::new(\"".toList ++ f ++ "\", None);\n".toList

/-- The completion statement pair, indented like the success pattern. -/
def endCode (indent : Buf) : Buf :=
  "\n".toList ++ indent ++ "span.set_status(true, None);\n".toList ++
    indent ++ "span.end();\n".toList

/-- Processing of one signature match by `add_basic_telemetry`: guard check in
the 200-character window, span insertion, brace scan, last success occurrence,
completion insertion.  The third component records the splices actually
applied, in order, as `(offset at application time, inserted text)`. -/
def basicProcessMatch (content : Buf) (f : Buf) (mEnd : Nat) :
    Buf × Outcome × List (Nat × Buf) :=
  if containsSub stepSpanMarker (pySliceNat content mEnd (mEnd + 200)) then
    (content, Outcome.skipped, [])
  else
    let tcode := spanLineB f
    let content1 := splice content mEnd tcode
    let searchStart := mEnd + tcode.length
    match braceScan content1 searchStart with
    | none => (content1, Outcome.noEnd, [(mEnd, tcode)])
    | some functionEnd =>
      let functionContent := pySliceNat content1 searchStart functionEnd
      match (finditerG matchOkAt functionContent 0).getLast? with
      | none => (content1, Outcome.noOk, [(mEnd, tcode)])
      | some (st, _, k) =>
        let okPos := searchStart + st
        let indent := (functionContent.drop st).take k
        let tend := endCode indent
        (splice content1 okPos tend, Outcome.instrumented, [(mEnd, tcode), (okPos, tend)])

/-- The `for match in reversed(matches)` loop of `add_basic_telemetry`
(call with the match list already reversed). -/
def basicLoop (f : Buf) : List (Nat × Nat × Unit) → Buf → Buf × List Outcome
  | [], content => (content, [])
  | (_, e, _) :: rest, content =>
    let r := basicProcessMatch content f e
    let r2 := basicLoop f rest r.1
    (r2.1, r.2.1 :: r2.2)

/-- `add_basic_telemetry(content, func_name)` of
`add_basic_telemetry_all_tools.py`. -/
def add_basic_telemetry (content : Buf) (f : Buf) : Buf × List Outcome :=
  let ms := finditerG (matchBasicG f) content 0
  if ms = [] then (content, [Outcome.notFound])
  else basicLoop f ms.reverse content

/-- The static tool table of `add_basic_telemetry_all_tools.py`. -/
def TOOLS_BASIC : List Buf :=
  ["validate_element".toList, "wait_for_element".toList, "navigate_browser".toList,
   "open_application".toList, "scroll_element".toList, "close_element".toList,
   "select_option".toList, "list_options".toList, "set_toggled".toList,
   "set_range_value".toList, "set_selected".toList, "is_toggled".toList,
   "get_range_value".toList, "is_selected".toList, "capture_element_screenshot".toList,
   "invoke_element".toList, "highlight_element".toList, "stop_highlighting".toList,
   "maximize_window".toList, "minimize_window".toList, "zoom_in".toList,
   "zoom_out".toList, "set_zoom".toList, "set_value".toList,
   "execute_browser_script".toList, "mouse_drag".toList, "delay".toList,
   "activate_element".toList, "record_workflow".toList,
   "export_workflow_sequence".toList, "import_workflow_sequence".toList]

/-- The batch orchestrator of `add_basic_telemetry_all_tools.py`: fold the
tool table over the buffer, collecting per-tool outcome lists. -/
def runBasicBatch (content : Buf) : Buf × List (List Outcome) :=
  TOOLS_BASIC.foldl
    (fun acc f =>
      let r := add_basic_telemetry acc.1 f
      (r.1, acc.2 ++ [r.2]))
    (content, [])

/-! ## Model of `add_telemetry_all_functions.py` -/

/-- Tool names that get the generic selector/timeout/retries attribute block. -/
def compSelectorList : List Buf :=
  ["validate_element".toList, "wait_for_element".toList, "scroll_element".toList,
   "close_element".toList, "select_option".toList, "list_options".toList,
   "set_toggled".toList, "set_range_value".toList, "set_selected".toList,
   "is_toggled".toList, "get_range_value".toList, "is_selected".toList,
   "capture_element_screenshot".toList, "invoke_element".toList,
   "highlight_element".toList, "maximize_window".toList, "minimize_window".toList,
   "zoom_in".toList, "zoom_out".toList, "set_zoom".toList, "set_value".toList,
   "activate_element".toList]

/-- Attribute block for selector-style tools. -/
def compAttrSelector : Buf :=
  ("\n        // Add telemetry attributes\n        span.set_attribute(\"selector\", args.selector.clone());\n        if let Some(timeout) = args.timeout_ms \x7b\n            span.set_attribute(\"timeout_ms\", timeout.to_string());\n        \x7d\n        if let Some(retries) = args.retries \x7b\n            span.set_attribute(\"retry.max_attempts\", retries.to_string());\n        \x7d\n").toList

/-- Attribute block for `mouse_drag`. -/
def compAttrMouseDrag : Buf :=
  ("\n        // Add telemetry attributes\n        span.set_attribute(\"from_selector\", args.from_selector.clone());\n        span.set_attribute(\"to_selector\", args.to_selector.clone());\n        if let Some(timeout) = args.timeout_ms \x7b\n            span.set_attribute(\"timeout_ms\", timeout.to_string());\n        \x7d\n        if let Some(retries) = args.retries \x7b\n            span.set_attribute(\"retry.max_attempts\", retries.to_string());\n        \x7d\n").toList

/-- Attribute block for `navigate_browser`. -/
def compAttrNavigate : Buf :=
  ("\n        // Add telemetry attributes\n        span.set_attribute(\"url\", args.url.clone());\n        if let Some(ref wait_for) = args.wait_for \x7b\n            span.set_attribute(\"wait_for\", wait_for.clone());\n        \x7d\n        if let Some(timeout) = args.timeout_ms \x7b\n            span.set_attribute(\"timeout_ms\", timeout.to_string());\n        \x7d\n").toList

/-- Attribute block for `open_application`. -/
def compAttrOpenApp : Buf :=
  ("\n        // Add telemetry attributes\n        if let Some(ref app_name) = args.app_name \x7b\n            span.set_attribute(\"app_name\", app_name.clone());\n        \x7d\n        if let Some(ref app_path) = args.app_path \x7b\n            span.set_attribute(\"app_path\", app_path.clone());\n        \x7d\n        if let Some(timeout) = args.timeout_ms \x7b\n            span.set_attribute(\"timeout_ms\", timeout.to_string());\n        \x7d\n").toList

/-- Attribute block for `delay`. -/
def compAttrDelay : Buf :=
  ("\n        // Add telemetry attributes\n        span.set_attribute(\"duration_ms\", args.duration_ms.to_string());\n").toList

/-- Attribute block for `execute_browser_script`. -/
def compAttrExecBrowser : Buf :=
  ("\n        // Add telemetry attributes\n        if let Some(ref script) = args.script \x7b\n            span.set_attribute(\"script.length\", script.len().to_string());\n        \x7d\n        if let Some(ref script_file) = args.script_file \x7b\n            span.set_attribute(\"script_file\", script_file.clone());\n        \x7d\n        if let Some(timeout) = args.timeout_ms \x7b\n            span.set_attribute(\"timeout_ms\", timeout.to_string());\n        \x7d\n").toList

/-- Attribute block for `stop_highlighting`. -/
def compAttrStopHighlight : Buf :=
  ("\n        // Add telemetry attributes\n        span.set_attribute(\"highlight_id\", args.highlight_id.clone());\n").toList

/-- The full telemetry code built by `add_comprehensive_telemetry`: the
span-creation line followed by the attribute block selected from the function
name (`"selector" in func_name or func_name in [...]`, then the `elif` chain). -/
def compTCode (f : Buf) : Buf :=
  spanLineB f ++
    (if containsSub "selector".toList f || compSelectorList.contains f then
      compAttrSelector
    else if f = "mouse_drag".toList then compAttrMouseDrag
    else if f = "navigate_browser".toList then compAttrNavigate
    else if f = "open_application".toList then compAttrOpenApp
    else if f = "delay".toList then compAttrDelay
    else if f = "execute_browser_script".toList then compAttrExecBrowser
    else if f = "stop_highlighting".toList then compAttrStopHighlight
    else [])

/-- The idempotency guard of the comprehensive script: span-creation marker
within the 200-character window after the signature match end. -/
def compGuard (content : Buf) (e : Nat) : Bool :=
  containsSub stepSpanMarker (pySliceNat content e (e + 200))

/-- Processing of one signature match by `add_comprehensive_telemetry`:
guard, attribute-code insertion, brace scan, last success occurrence,
completion-marker check in the 100-character window, completion insertion. -/
def compProcessMatch (content : Buf) (f : Buf) (e : Nat) : Buf × Outcome :=
  if compGuard content e then (content, Outcome.skipped)
  else
    let t := compTCode f
    let c1 := splice content e t
    let ss := e + t.length
    match braceScan c1 ss with
    | none => (c1, Outcome.noEnd)
    | some fe =>
      let fc := pySliceNat c1 ss fe
      match (finditerG matchOkAt fc 0).getLast? with
      | none => (c1, Outcome.noOk)
      | some (st, _, k) =>
        let okPos := ss + st
        let checkBefore := pySliceInt c1 ((okPos : Int) - 100) (okPos : Int)
        if containsSub spanEndMarker checkBefore then (c1, Outcome.skippedEnd)
        else
          let indent := (fc.drop st).take k
          (splice c1 okPos (endCode indent), Outcome.instrumented)

/-- Observer exposing the completion offset `ok_pos` that
`add_comprehensive_telemetry` selects for a match ending at `e` (the pipeline
prefix of `compProcessMatch` up to the success-pattern search). -/
def compOkPos (content : Buf) (f : Buf) (e : Nat) : Option Nat :=
  let t := compTCode f
  let c1 := splice content e t
  let ss := e + t.length
  match braceScan c1 ss with
  | none => none
  | some fe =>
    match (finditerG matchOkAt (pySliceNat c1 ss fe) 0).getLast? with
    | none => none
    | some (st, _, _) => some (ss + st)

/-- The reversed-match loop of `add_comprehensive_telemetry`, also tracking
the `added` flag (set when any match gets the completion inserted). -/
def compLoop (f : Buf) : List (Nat × Nat × Unit) → Buf → Buf × Bool × List Outcome
  | [], content => (content, false, [])
  | (_, e, _) :: rest, content =>
    let r := compProcessMatch content f e
    let r2 := compLoop f rest r.1
    (r2.1, r2.2.1 || decide (r.2 = Outcome.instrumented), r.2 :: r2.2.2)

/-- `add_comprehensive_telemetry(content, func_name)` of
`add_telemetry_all_functions.py`. -/
def add_comprehensive_telemetry (content : Buf) (f : Buf) :
    Buf × Bool × List Outcome :=
  let ms := finditerG (matchCompG f) content 0
  if ms = [] then (content, false, [Outcome.notFound])
  else compLoop f ms.reverse content

/-- The module-level batch loop of `add_telemetry_all_functions.py`: every
configured function is processed in turn; the count of functions that got new
telemetry is accumulated. -/
def compBatch (config : List Buf) (content : Buf) : Buf × Nat × List (List Outcome) :=
  config.foldl
    (fun acc f =>
      let r := add_comprehensive_telemetry acc.1 f
      (r.1, acc.2.1 + (if r.2.1 then 1 else 0), acc.2.2 ++ [r.2.2]))
    (content, 0, [])

/-! ## Model of `batch_add_telemetry.py` -/

/-- The span-creation block of the batch script (inserted after the first
newline following the opening brace; note: no trailing newline). -/
def batchTStart (f : Buf) : Buf :=
  "\n        // Start telemetry span\n        let mut span = StepSpan::new(\"".toList ++
    f ++ "\", None);".toList

/-- The completion block of the batch script (hard-coded indentation). -/
def batchTEnd : Buf :=
  "\n        span.set_status(true, None);\n        span.end();\n".toList

/-- Processing of one signature match by `add_telemetry_to_function` of
`batch_add_telemetry.py`: guard, insertion after the first newline, then a
search for the success pattern in a fixed 20000-character window starting at
`func_start + len(telemetry_start)` — not bounded by the function's body. -/
def batchProcessMatch (content : Buf) (f : Buf) (e : Nat) : Buf :=
  if containsSub stepSpanMarker (pySliceNat content e (e + 200)) then content
  else
    match findCharFrom content '\n' e with
    | none => content
    | some fnl =>
      let ts := batchTStart f
      let c1 := splice content fnl ts
      let ss := e + ts.length
      match (finditerG matchOkBatchAt (pySliceNat c1 ss (ss + 20000)) 0).getLast? with
      | none => c1
      | some (st, _, _) => splice c1 (ss + st) batchTEnd

/-- Observer exposing the completion offset `ok_pos` the batch script selects
for a match ending at `e` (pipeline prefix of `batchProcessMatch`). -/
def batchOkPos (content : Buf) (f : Buf) (e : Nat) : Option Nat :=
  match findCharFrom content '\n' e with
  | none => none
  | some fnl =>
    let ts := batchTStart f
    let c1 := splice content fnl ts
    let ss := e + ts.length
    match (finditerG matchOkBatchAt (pySliceNat c1 ss (ss + 20000)) 0).getLast? with
    | none => none
    | some (st, _, _) => some (ss + st)

/-- `add_telemetry_to_function(content, func_name, args_type)` of
`batch_add_telemetry.py` (the `args_type` argument is unused by the source). -/
def add_telemetry_to_function (content : Buf) (f : Buf) : Buf :=
  ((finditerG (matchBatchG f) content 0).reverse).foldl
    (fun c m => batchProcessMatch c f m.2.1) content

/-! ## Model of `add_all_telemetry.py` (line-based variant) -/

/-- Anchored match of `\s*(?:pub\s+)?async\s+fn\s+NAME\s*\(` against the
start of a line (`re.match`). -/
def lineSigCore (f : Buf) (t : Buf) : Option Nat := do
  let l1 ← matchLit "async".toList t
  let t1 := t.drop l1
  let w1 := wsCount t1
  if w1 = 0 then none else do
    let t2 := t1.drop w1
    let l2 ← matchLit "fn".toList t2
    let t3 := t2.drop l2
    let w2 := wsCount t3
    if w2 = 0 then none else do
      let t4 := t3.drop w2
      let l3 ← matchLit f t4
      let t5 := t4.drop l3
      let t6 := t5.drop (wsCount t5)
      let l4 ← matchLit "(".toList t6
      pure (l1 + w1 + l2 + w2 + l3 + l4)

/-- Whether a line starts with the function signature, per the anchored
pattern of `add_all_telemetry.py`. -/
def lineIsSig (f line : Buf) : Bool :=
  let t := line.drop (wsCount line)
  let pubTry : Option Nat :=
    match matchLit "pub".toList t with
    | some lp =>
      let w := wsCount (t.drop lp)
      if w = 0 then none else lineSigCore f (t.drop (lp + w))
    | none => none
  match pubTry with
  | some _ => true
  | none => (lineSigCore f t).isSome

/-- First line index `≥ n` (position tracked in the accumulator) whose line
contains an opening brace; `lines.length` when none does. -/
def findBraceLineAux : List Buf → Nat → Nat
  | [], n => n
  | l :: rest, n =>
    if l.contains lbrace then n else findBraceLineAux rest (n + 1)

/-- The `while '{' not in lines[brace_line]` loop of `add_all_telemetry.py`. -/
def findBraceLine (lines : List Buf) (i : Nat) : Nat :=
  findBraceLineAux (lines.drop i) i

/-- Python `xs[i:i] = ys`: insert the lines `ys` at index `i`. -/
def insertAt (xs : List Buf) (i : Nat) (ys : List Buf) : List Buf :=
  xs.take i ++ ys ++ xs.drop i

/-- The substring the line variant looks for on each line. -/
def okSubMarker : Buf := "Ok(CallToolResult::success".toList

/-- The three lines inserted after the opening brace by the line variant. -/
def allTelemetryLines (f : Buf) : List Buf :=
  ["        // Start telemetry span\n".toList,
   "        let mut span = StepSpan::new(\"".toList ++ f ++ "\", None);\n".toList,
   "\n".toList]

/-- Inner loop of `add_telemetry_to_lines`: walk lines tracking the brace
count, inserting a completion pair before EVERY line containing the success
substring, until the count returns to zero.  Returns the final lines and the
final line index. -/
def allInner : Nat → List Buf → Nat → Int → List Buf × Nat
  | 0, lines, j, _ => (lines, j)
  | Nat.succ fuel, lines, j, bc =>
    if h : j < lines.length ∧ 0 < bc then
      let line := lines.get ⟨j, h.1⟩
      let bc1 := bc + (line.count lbrace : Int) - (line.count rbrace : Int)
      if containsSub okSubMarker line then
        let indent := line.takeWhile wsChar
        let ins :=
          ["\n".toList ++ indent ++ "span.set_status(true, None);\n".toList,
           indent ++ "span.end();\n\n".toList]
        allInner fuel (insertAt lines j ins) (j + 2 + 1) bc1
      else allInner fuel lines (j + 1) bc1
    else (lines, j)

/-- Outer loop of `add_telemetry_to_lines`: find a signature line, locate the
brace line, check five lines ahead for the marker, insert the span lines,
then run the inner loop and resume at its final index. -/
def allOuter (f : Buf) : Nat → List Buf → Nat → List Buf
  | 0, lines, _ => lines
  | Nat.succ fuel, lines, i =>
    if h : i < lines.length then
      if lineIsSig f (lines.get ⟨i, h⟩) then
        let braceLine := findBraceLine lines i
        let hasTel := ((lines.drop braceLine).take 5).any
          (fun l => containsSub stepSpanMarker l)
        if hasTel then allOuter f fuel lines (i + 1)
        else
          let insertLine := braceLine + 1
          let lines1 := insertAt lines insertLine (allTelemetryLines f)
          let r := allInner (4 * lines1.length + 8) lines1 (insertLine + 3) 1
          allOuter f fuel r.1 r.2
      else allOuter f fuel lines (i + 1)
    else lines

/-- `add_telemetry_to_lines(lines, func_name)` of `add_all_telemetry.py`. -/
def add_telemetry_to_lines (lines : List Buf) (f : Buf) : List Buf :=
  allOuter f (4 * lines.length + 8) lines 0

/-! ## Model of `add_telemetry_remaining_tools.py` -/

/-- The marker checked by the enhancement script before adding attributes. -/
def remSetAttrMarker : Buf := "span.set_attribute".toList

/-- Per-attribute statement renderer: the `if attr == ... :` chain of
`add_telemetry_remaining_tools.py` (unknown attribute names render nothing). -/
def renderRemAttr (a : Buf) : Buf :=
  if a = "selector".toList then
    "\n        span.set_attribute(\"selector\", args.selector.clone());".toList
  else if a = "from_selector".toList then
    "\n        span.set_attribute(\"from_selector\", args.from_selector.clone());".toList
  else if a = "to_selector".toList then
    "\n        span.set_attribute(\"to_selector\", args.to_selector.clone());".toList
  else if a = "timeout_ms".toList then
    ("\n        if let Some(timeout) = args.timeout_ms \x7b\n            span.set_attribute(\"timeout_ms\", timeout.to_string());\n        \x7d").toList
  else if a = "retries".toList then
    ("\n        if let Some(retries) = args.retries \x7b\n            span.set_attribute(\"retry.max_attempts\", retries.to_string());\n        \x7d").toList
  else if a = "duration_ms".toList then
    "\n        span.set_attribute(\"duration_ms\", args.duration_ms.to_string());".toList
  else if a = "url".toList then
    "\n        span.set_attribute(\"url\", args.url.clone());".toList
  else if a = "app_name".toList then
    ("\n        if let Some(ref app_name) = args.app_name \x7b\n            span.set_attribute(\"app_name\", app_name.clone());\n        \x7d").toList
  else if a = "app_path".toList then
    ("\n        if let Some(ref app_path) = args.app_path \x7b\n            span.set_attribute(\"app_path\", app_path.clone());\n        \x7d").toList
  else if a = "script".toList then
    ("\n        if let Some(ref script) = args.script \x7b\n            span.set_attribute(\"script.length\", script.len().to_string());\n        \x7d").toList
  else if a = "script_file".toList then
    ("\n        if let Some(ref script_file) = args.script_file \x7b\n            span.set_attribute(\"script_file\", script_file.clone());\n        \x7d").toList
  else if a = "direction".toList then
    ("\n        span.set_attribute(\"direction\", format!(\"\x7b:?\x7d\", args.direction));").toList
  else if a = "amount".toList then
    ("\n        if let Some(amount) = args.amount \x7b\n            span.set_attribute(\"amount\", amount.to_string());\n        \x7d").toList
  else if a = "state".toList then
    ("\n        span.set_attribute(\"state\", format!(\"\x7b:?\x7d\", args.state));").toList
  else if a = "toggled".toList then
    "\n        span.set_attribute(\"toggled\", args.toggled.to_string());".toList
  else if a = "selected".toList then
    "\n        span.set_attribute(\"selected\", args.selected.to_string());".toList
  else if a = "value".toList then
    "\n        span.set_attribute(\"value\", args.value.clone());".toList
  else if a = "zoom_level".toList then
    "\n        span.set_attribute(\"zoom_level\", args.zoom_level.to_string());".toList
  else if a = "steps".toList then
    ("\n        if let Some(steps) = args.steps \x7b\n            span.set_attribute(\"steps\", steps.to_string());\n        \x7d").toList
  else if a = "highlight_id".toList then
    "\n        span.set_attribute(\"highlight_id\", args.highlight_id.clone());".toList
  else if a = "color".toList then
    ("\n        if let Some(ref color) = args.color \x7b\n            span.set_attribute(\"color\", format!(\"#\x7b:02X\x7d\x7b:02X\x7d\x7b:02X\x7d\", color.0, color.1, color.2));\n        \x7d").toList
  else if a = "wait_for".toList then
    ("\n        if let Some(ref wait_for) = args.wait_for \x7b\n            span.set_attribute(\"wait_for\", wait_for.clone());\n        \x7d").toList
  else if a = "use_protocol".toList then
    "\n        span.set_attribute(\"use_protocol\", args.use_protocol.unwrap_or(false).to_string());".toList
  else if a = "wait_for_window".toList then
    "\n        span.set_attribute(\"wait_for_window\", args.wait_for_window.unwrap_or(false).to_string());".toList
  else if a = "arguments".toList then
    ("\n        if let Some(ref arguments) = args.arguments \x7b\n            span.set_attribute(\"arguments.count\", arguments.len().to_string());\n        \x7d").toList
  else if a = "option_selector".toList then
    ("\n        if let Some(ref option_selector) = args.option_selector \x7b\n            span.set_attribute(\"option_selector\", option_selector.clone());\n        \x7d").toList
  else if a = "option_value".toList then
    ("\n        if let Some(ref option_value) = args.option_value \x7b\n            span.set_attribute(\"option_value\", option_value.clone());\n        \x7d").toList
  else if a = "option_text".toList then
    ("\n        if let Some(ref option_text) = args.option_text \x7b\n            span.set_attribute(\"option_text\", option_text.clone());\n        \x7d").toList
  else if a = "browser_pid".toList then
    ("\n        if let Some(browser_pid) = args.browser_pid \x7b\n            span.set_attribute(\"browser_pid\", browser_pid.to_string());\n        \x7d").toList
  else if a = "browser_window_name".toList then
    ("\n        if let Some(ref browser_window_name) = args.browser_window_name \x7b\n            span.set_attribute(\"browser_window_name\", browser_window_name.clone());\n        \x7d").toList
  else if a = "browser_url_pattern".toList then
    ("\n        if let Some(ref browser_url_pattern) = args.browser_url_pattern \x7b\n            span.set_attribute(\"browser_url_pattern\", browser_url_pattern.clone());\n        \x7d").toList
  else []

/-- The full attribute block built by the enhancement script: header comment
followed by each attribute's rendered statement in plan order. -/
def remTCode (attrs : List Buf) : Buf :=
  "\n\n        // Add comprehensive telemetry attributes".toList ++
    (attrs.map renderRemAttr).flatten

/-- Matcher for `(let mut span = StepSpan::new\("NAME", None\);)\s*\n`. -/
def matchRemAt (f : Buf) (s : Buf) : Option (Nat × Unit) := do
  let l ← matchLit
    ("let mut span = StepSpan::new(\"".toList ++ f ++ "\", None);".toList) s
  let rest := s.drop l
  let run := rest.take (wsCount rest)
  let j ← lastNlIdx run
  pure (l + j + 1, ())

/-- Processing of one span-line match by the enhancement script: skip when
attributes are already present in the 200-character window, else insert the
attribute block right after the matched span line. -/
def remProcessMatch (content : Buf) (attrs : List Buf) (e : Nat) : Buf :=
  if containsSub remSetAttrMarker (pySliceNat content e (e + 200)) then content
  else splice content e (remTCode attrs)

/-- `add_comprehensive_telemetry(content, func_name, attributes)` of
`add_telemetry_remaining_tools.py`. -/
def rem_add_comprehensive_telemetry (content : Buf) (f : Buf) (attrs : List Buf) : Buf :=
  ((finditerG (matchRemAt f) content 0).reverse).foldl
    (fun c m => remProcessMatch c attrs m.2.1) content

/-! ## Model of `final_cleanup_telemetry.py` (Schema Correction Pass) -/

/-- The wrongly emitted statement targeted by the correction rule
(the `re.sub` pattern is a regex-escaped literal). -/
def toggledOld : Buf :=
  "span.set_attribute(\"toggled\", args.toggled.to_string());".toList

/-- The corrected statement the rule substitutes. -/
def toggledNew : Buf :=
  "span.set_attribute(\"state\", args.state.to_string());".toList

/-- Fuel-driven literal `re.sub`: replace every non-overlapping leftmost
occurrence of `old` by `new`. -/
def replaceAllAux (old new : Buf) : Nat → Buf → Buf
  | 0, l => l
  | Nat.succ fuel, l =>
    match l with
    | [] => []
    | c :: rest =>
      if old.isPrefixOf (c :: rest) then
        new ++ replaceAllAux old new fuel ((c :: rest).drop old.length)
      else c :: replaceAllAux old new fuel rest

/-- Literal `re.sub(old, new, content)` (for a non-empty `old`). -/
def replaceAll (old new content : Buf) : Buf :=
  replaceAllAux old new (content.length + 1) content

/-- The `toggled → state` correction of `final_cleanup_telemetry.py`
(module-level `re.sub`, lines 10-14). -/
def fix_toggled (content : Buf) : Buf :=
  replaceAll toggledOld toggledNew content

/-! ## Helper lemmas: prefixes and substring containment -/

theorem isPrefixOf_append_self (n t : Buf) : n.isPrefixOf (n ++ t) = true := by
  induction n with
  | nil => simp [List.isPrefixOf]
  | cons c r ih => simp [List.isPrefixOf_cons₂, ih]

theorem length_le_of_isPrefixOf {n s : Buf} (h : n.isPrefixOf s = true) :
    n.length ≤ s.length := by
  induction n generalizing s with
  | nil => simp
  | cons c r ih =>
    cases s with
    | nil => simp [List.isPrefixOf] at h
    | cons b bs =>
      simp only [List.isPrefixOf_cons₂, Bool.and_eq_true] at h
      simpa using ih h.2

theorem take_eq_of_isPrefixOf {n s : Buf} (h : n.isPrefixOf s = true) :
    s.take n.length = n := by
  induction n generalizing s with
  | nil => simp
  | cons c r ih =>
    cases s with
    | nil => simp [List.isPrefixOf] at h
    | cons b bs =>
      simp only [List.isPrefixOf_cons₂, Bool.and_eq_true, beq_iff_eq] at h
      simp [List.take_succ_cons, ih h.2, h.1]

theorem isPrefixOf_of_take_eq {n s : Buf} (h : s.take n.length = n) :
    n.isPrefixOf s = true := by
  induction n generalizing s with
  | nil => simp [List.isPrefixOf]
  | cons c r ih =>
    cases s with
    | nil => simp at h
    | cons b bs =>
      simp only [List.length_cons, List.take_succ_cons, List.cons.injEq] at h
      simp [List.isPrefixOf_cons₂, h.1, ih h.2]

theorem isPrefixOf_of_append_le {n a b : Buf} (h : n.isPrefixOf (a ++ b) = true)
    (hl : n.length ≤ a.length) : n.isPrefixOf a = true := by
  apply isPrefixOf_of_take_eq
  have h1 := take_eq_of_isPrefixOf h
  rwa [List.take_append_eq_append_take, Nat.sub_eq_zero_of_le hl, List.take_zero,
    List.append_nil] at h1

theorem containsSub_iff {n h : Buf} :
    containsSub n h = true ↔ ∃ i, n.isPrefixOf (h.drop i) = true := by
  induction h with
  | nil =>
    simp only [containsSub, List.isEmpty_iff, List.drop_nil]
    constructor
    · rintro rfl; exact ⟨0, by simp [List.isPrefixOf]⟩
    · rintro ⟨i, hi⟩
      cases n with
      | nil => rfl
      | cons c r => simp [List.isPrefixOf] at hi
  | cons c r ih =>
    simp only [containsSub, Bool.or_eq_true]
    constructor
    · rintro (hp | hc)
      · exact ⟨0, hp⟩
      · obtain ⟨i, hi⟩ := ih.1 hc
        exact ⟨i + 1, by simpa using hi⟩
    · rintro ⟨i, hi⟩
      cases i with
      | zero => exact Or.inl hi
      | succ j => exact Or.inr (ih.2 ⟨j, by simpa using hi⟩)

theorem containsSub_append_mid (n a b : Buf) : containsSub n (a ++ n ++ b) = true := by
  rw [containsSub_iff]
  refine ⟨a.length, ?_⟩
  rw [List.append_assoc, List.drop_left' rfl]
  exact isPrefixOf_append_self n b

theorem no_prefix_of_containsSub_false {n h : Buf} (hc : containsSub n h = false) :
    ∀ i, n.isPrefixOf (h.drop i) = false := by
  intro i
  by_contra hne
  have : containsSub n h = true := containsSub_iff.2 ⟨i, by
    cases hp : n.isPrefixOf (h.drop i) with
    | true => rfl
    | false => exact absurd hp hne⟩
  rw [this] at hc; cases hc

/-! ## Helper lemmas: splices and slices -/

theorem length_splice (c : Buf) (pos : Nat) (t : Buf) :
    (splice c pos t).length = c.length + t.length := by
  simp [splice, List.length_append, List.length_take, List.length_drop]
  omega

theorem take_splice {c t : Buf} {pos p : Nat} (h1 : p ≤ pos) (h2 : p ≤ c.length) :
    (splice c pos t).take p = c.take p := by
  simp only [splice, List.append_assoc, List.take_append_eq_append_take,
    List.length_take, List.take_take]
  have hmin : min p pos = p := by omega
  have hz : p - min pos c.length = 0 := by omega
  simp [hmin, hz]

theorem drop_splice_self {c t : Buf} {e : Nat} (h : e ≤ c.length) :
    (splice c e t).drop e = t ++ c.drop e := by
  simp only [splice, List.append_assoc]
  rw [List.drop_left']
  simp [List.length_take]
  omega

theorem slice_as_take (l : Buf) (a b : Nat) :
    pySliceNat l a b = (l.drop a).take (b - a) := by
  rw [pySliceNat, List.take_drop]
  rcases Nat.le_total a b with hab | hab
  · rw [Nat.add_sub_cancel' hab]
  · have h1 : b - a = 0 := by omega
    rw [h1, Nat.add_zero]
    have e1 : (l.take b).drop a = [] := by
      apply List.drop_eq_nil_of_le
      simp only [List.length_take]
      omega
    have e2 : (l.take a).drop a = [] := by
      apply List.drop_eq_nil_of_le
      simp only [List.length_take]
      omega
    rw [e1, e2]

theorem slice_splice {c t : Buf} {e : Nat} (h : e ≤ c.length) :
    pySliceNat (splice c e t) e (e + t.length) = t := by
  rw [slice_as_take, drop_splice_self h, Nat.add_sub_cancel_left,
    List.take_append_eq_append_take, List.take_length, Nat.sub_self, List.take_zero,
    List.append_nil]

theorem slice_splice_outside {c tend : Buf} {pos a b : Nat} (h1 : b ≤ pos)
    (h2 : b ≤ c.length) : pySliceNat (splice c pos tend) a b = pySliceNat c a b := by
  unfold pySliceNat
  rw [take_splice h1 h2]

/-! ## Helper lemmas: finditer -/

theorem finditerAux_mem_bounds {α : Type} {m : Buf → Option (Nat × α)} :
    ∀ {fuel : Nat} {s : Buf} {pos : Nat} {x : Nat × Nat × α},
      x ∈ finditerAux m fuel s pos → pos ≤ x.1 ∧ x.1 < pos + s.length := by
  intro fuel
  induction fuel with
  | zero => intro s pos x hx; simp [finditerAux] at hx
  | succ fuel ih =>
    intro s pos x hx
    cases s with
    | nil => simp [finditerAux] at hx
    | cons c rest =>
      rw [finditerAux] at hx
      rcases hm : m (c :: rest) with _ | ⟨len, a⟩
      · rw [hm] at hx
        have := ih hx
        simp only [List.length_cons]
        omega
      · rw [hm] at hx
        cases len with
        | zero =>
          have := ih hx
          simp only [List.length_cons]
          omega
        | succ len =>
          simp only [List.mem_cons] at hx
          rcases hx with rfl | hx
          · simp
          · have := ih hx
            have hd : (rest.drop len).length = rest.length - len := List.length_drop _ _
            simp only [List.length_cons]
            omega

theorem finditerAux_sorted {α : Type} {m : Buf → Option (Nat × α)} :
    ∀ {fuel : Nat} {s : Buf} {pos : Nat},
      (finditerAux m fuel s pos).Pairwise (fun a b => a.1 < b.1) := by
  intro fuel
  induction fuel with
  | zero => intro s pos; simp [finditerAux]
  | succ fuel ih =>
    intro s pos
    cases s with
    | nil => simp [finditerAux]
    | cons c rest =>
      rw [finditerAux]
      rcases hm : m (c :: rest) with _ | ⟨len, a⟩
      · exact ih
      · cases len with
        | zero => exact ih
        | succ len =>
          rw [List.pairwise_cons]
          refine ⟨fun y hy => ?_, ih⟩
          have := finditerAux_mem_bounds hy
          simp only
          omega

theorem mem_of_getLast?_eq {α : Type} : ∀ {l : List α} {y : α},
    l.getLast? = some y → y ∈ l := by
  intro l
  induction l with
  | nil => intro y h; simp at h
  | cons a l ih =>
    intro y h
    cases l with
    | nil => simp_all
    | cons b l2 =>
      rw [List.getLast?_cons_cons] at h
      exact List.mem_cons_of_mem a (ih h)

theorem pairwise_getLast_max {α : Type} {g : α → Nat} : ∀ {l : List α} {y : α},
    l.Pairwise (fun a b => g a < g b) → l.getLast? = some y →
    ∀ x ∈ l, g x ≤ g y := by
  intro l
  induction l with
  | nil => intro y _ h; simp at h
  | cons a l ih =>
    intro y hp hl x hx
    rw [List.pairwise_cons] at hp
    cases l with
    | nil =>
      simp_all
    | cons b l2 =>
      rw [List.getLast?_cons_cons] at hl
      rcases List.mem_cons.1 hx with rfl | hx2
      · have hy := mem_of_getLast?_eq hl
        exact Nat.le_of_lt (hp.1 y hy)
      · exact ih hp.2 hl x hx2

/-- The last match returned by `finditerG` has the maximal start offset:
the "last occurrence in source order" really is the final one. -/
theorem finditerG_getLast_max {α : Type} {m : Buf → Option (Nat × α)} {s : Buf}
    {pos : Nat} {y : Nat × Nat × α} (h : (finditerG m s pos).getLast? = some y) :
    ∀ x ∈ finditerG m s pos, x.1 ≤ y.1 :=
  pairwise_getLast_max (g := fun x => x.1) finditerAux_sorted h

/-! ## Helper lemmas: the brace scan -/

theorem count_take_succ_cons (a x : Char) (l : Buf) (k : Nat) :
    ((x :: l).take (k + 1)).count a = (l.take k).count a + (if x = a then 1 else 0) := by
  simp [List.take_succ_cons, List.count_cons]

theorem braceScanAux_spec : ∀ (s : Buf) (pos cnt e : Nat),
    braceScanAux s pos cnt = some e → 1 ≤ cnt →
    pos ≤ e ∧ e - pos < s.length ∧
    ((s.take (e - pos)).count lbrace : Int) - ((s.take (e - pos)).count rbrace : Int)
      = 1 - (cnt : Int) ∧
    (∀ k, k ≤ e - pos →
      (cnt : Int) + ((s.take k).count lbrace : Int) - ((s.take k).count rbrace : Int) ≥ 1) ∧
    s.getD (e - pos) ' ' = rbrace := by
  intro s
  induction s with
  | nil => intro pos cnt e h _; simp [braceScanAux] at h
  | cons c rest ih =>
    intro pos cnt e h hcnt
    rw [braceScanAux] at h
    by_cases hc1 : c = lbrace
    · subst hc1
      rw [if_pos rfl] at h
      obtain ⟨h1, h2, h3, h4, h5⟩ := ih (pos + 1) (cnt + 1) e h (by omega)
      have hsub : e - pos = (e - (pos + 1)) + 1 := by omega
      have d1 : (if lbrace = lbrace then 1 else 0) = 1 := by decide
      have d2 : (if lbrace = rbrace then 1 else 0) = 0 := by decide
      refine ⟨by omega, by simp only [List.length_cons]; omega, ?_, ?_, ?_⟩
      · rw [hsub, count_take_succ_cons, count_take_succ_cons, d1, d2]
        push_cast
        omega
      · intro k hk
        cases k with
        | zero => simp; omega
        | succ k2 =>
          have hh := h4 k2 (by omega)
          rw [count_take_succ_cons, count_take_succ_cons, d1, d2]
          push_cast
          push_cast at hh
          omega
      · rw [hsub, List.getD_cons_succ]
        exact h5
    · by_cases hc2 : c = rbrace
      · subst hc2
        rw [if_neg hc1, if_pos rfl] at h
        have d1 : (if rbrace = lbrace then 1 else 0) = 0 := by decide
        have d2 : (if rbrace = rbrace then 1 else 0) = 1 := by decide
        by_cases hone : cnt = 1
        · subst hone
          rw [if_pos rfl] at h
          injection h with he
          subst he
          refine ⟨Nat.le_refl _, by simp, by simp, ?_, ?_⟩
          · intro k hk
            have hk0 : k = 0 := by omega
            subst hk0
            simp
          · simp
        · rw [if_neg hone] at h
          obtain ⟨h1, h2, h3, h4, h5⟩ := ih (pos + 1) (cnt - 1) e h (by omega)
          have hsub : e - pos = (e - (pos + 1)) + 1 := by omega
          refine ⟨by omega, by simp only [List.length_cons]; omega, ?_, ?_, ?_⟩
          · rw [hsub, count_take_succ_cons, count_take_succ_cons, d1, d2]
            push_cast
            omega
          · intro k hk
            cases k with
            | zero => simp; omega
            | succ k2 =>
              have hh := h4 k2 (by omega)
              rw [count_take_succ_cons, count_take_succ_cons, d1, d2]
              push_cast
              push_cast at hh
              omega
          · rw [hsub, List.getD_cons_succ]
            exact h5
      · rw [if_neg hc1, if_neg hc2] at h
        obtain ⟨h1, h2, h3, h4, h5⟩ := ih (pos + 1) cnt e h hcnt
        have hsub : e - pos = (e - (pos + 1)) + 1 := by omega
        have d1 : (if c = lbrace then 1 else 0) = 0 := by rw [if_neg hc1]
        have d2 : (if c = rbrace then 1 else 0) = 0 := by rw [if_neg hc2]
        refine ⟨by omega, by simp only [List.length_cons]; omega, ?_, ?_, ?_⟩
        · rw [hsub, count_take_succ_cons, count_take_succ_cons, d1, d2]
          push_cast
          omega
        · intro k hk
          cases k with
          | zero => simp; omega
          | succ k2 =>
            have hh := h4 k2 (by omega)
            rw [count_take_succ_cons, count_take_succ_cons, d1, d2]
            push_cast
            push_cast at hh
            omega
        · rw [hsub, List.getD_cons_succ]
          exact h5

/-- Basic positional consequences of a successful brace scan. -/
theorem braceScan_bounds {content : Buf} {start e : Nat}
    (h : braceScan content start = some e) :
    start ≤ e ∧ e < content.length := by
  obtain ⟨h1, h2, _, _, _⟩ := braceScanAux_spec (content.drop start) start 1 e h
    (Nat.le_refl 1)
  rw [List.length_drop] at h2
  omega

/-! ## Helper lemmas: the instrumentation marker inside inserted text -/

theorem spanLineB_decomp (f : Buf) :
    spanLineB f = "        let mut span = ".toList ++ stepSpanMarker ++
      ("(\"".toList ++ f ++ "\", None);\n".toList) := by
  have h : ("        let mut span = StepSpan::new(\"".toList : Buf) =
      "        let mut span = ".toList ++ stepSpanMarker ++ "(\"".toList := by decide
  simp only [spanLineB, h, List.append_assoc]

theorem containsSub_take_of_inner {pre mid post : Buf} {n : Nat}
    (h : pre.length + mid.length ≤ n) :
    containsSub mid ((pre ++ (mid ++ post)).take n) = true := by
  rw [List.take_append_eq_append_take, List.take_of_length_le (by omega),
    List.take_append_eq_append_take, List.take_of_length_le (by omega)]
  have hm := containsSub_append_mid mid pre (post.take (n - pre.length - mid.length))
  simpa [List.append_assoc] using hm

/-- Any buffer whose suffix at `e` starts with the span-creation line carries
the instrumentation marker inside the 200-character guard window at `e`. -/
theorem window_has_marker {R junk f : Buf} {e : Nat}
    (h : R.drop e = spanLineB f ++ junk) :
    containsSub stepSpanMarker (pySliceNat R e (e + 200)) = true := by
  rw [slice_as_take, Nat.add_sub_cancel_left, h, spanLineB_decomp]
  have hl : ("        let mut span = ".toList : Buf).length + stepSpanMarker.length ≤ 200 := by
    decide
  have hm := @containsSub_take_of_inner ("        let mut span = ".toList)
    stepSpanMarker (("(\"".toList ++ f ++ "\", None);\n".toList) ++ junk) 200 hl
  simpa [List.append_assoc] using hm

theorem drop_splice_of_ge {c u : Buf} {pos e : Nat} (he : e ≤ pos)
    (hp : pos ≤ c.length) :
    (splice c pos u).drop e = (c.drop e).take (pos - e) ++ u ++ c.drop pos := by
  have hlen : (c.take pos).length = pos := by
    simp only [List.length_take]
    omega
  have h1 : (c.take pos).drop e = (c.drop e).take (pos - e) := by
    rw [List.take_drop, Nat.add_sub_cancel' he]
  simp only [splice, List.append_assoc, List.drop_append_eq_append_drop, hlen,
    Nat.sub_eq_zero_of_le he, Nat.zero_sub, List.drop_zero, h1]

theorem take_append_of_le {t w : Buf} {n : Nat} (h : t.length ≤ n) :
    (t ++ w).take n = t ++ w.take (n - t.length) := by
  rw [List.take_append_eq_append_take, List.take_of_length_le h]

/-! ## Concrete input buffers used by witnesses and counterexamples -/

/-- One plain tool function; used to exhibit the ascending application order
of the two insertions of one match. -/
def cexC5 : Buf :=
  "async fn delay(a: D) -> Result<CallToolResult, McpError> \x7b\n    Ok(CallToolResult::success(r))\n\x7d\n".toList

/-- A function that carries a completion marker before its success pattern but
no span-creation marker after its signature. -/
def cexC4 : Buf :=
  "pub async fn delay(args: D) -> Result<CallToolResult, McpError> \x7b\n    span.end();\n    Ok(CallToolResult::success(r))\n\x7d\n".toList

/-- A tool function without a success pattern, followed by an unrelated
function that has one: the 20000-character window of the batch script reaches
past the tool function's closing brace. -/
def cexC3 : Buf :=
  "async fn zoom_in(a: A) -> Result<CallToolResult, McpError> \x7b\n    do_it();\n\x7d\n\nfn helper() \x7b\n    Ok(CallToolResult::success(x))\n\x7d\n".toList

/-- A function body with an early success occurrence inside a conditional and
a trailing canonical one, split into lines for the line-based variant. -/
def cexC2 : List Buf :=
  ["    async fn set_value(a: A) -> Result<CallToolResult, McpError> \x7b\n".toList,
   "        if cond \x7b\n".toList,
   "            Ok(CallToolResult::success(x))\n".toList,
   "        \x7d\n".toList,
   "        Ok(CallToolResult::success(y))\n".toList,
   "    \x7d\n".toList]

/-- The same two-success-occurrence body as one buffer, for the offset-based
comprehensive script. -/
def wbuf : Buf :=
  "async fn set_value(a: V) -> Result<CallToolResult, McpError> \x7b\n    if c \x7b\n        return Ok(CallToolResult::success(x));\n    \x7d\n    Ok(CallToolResult::success(y))\n\x7d\n".toList

/-- An already-instrumented function: the span-creation marker sits right
after the opening brace. -/
def wC1 : Buf :=
  "async fn delay(a: D) -> Result<CallToolResult, McpError> \x7b\n        let mut span = StepSpan::new(\"delay\", None);\n    Ok(CallToolResult::success(r))\n\x7d\n".toList

/-- A function whose span-creation marker first occurs more than 200
characters past the signature match (hidden behind a long comment), so the
bounded guard window cannot see it. -/
def wC10 : Buf :=
  "async fn delay(a: D) -> Result<CallToolResult, McpError> \x7b\n    // ".toList ++
    List.replicate 200 'z' ++
    "\n    let mut span = StepSpan::new(\"delay\", None);\n    Ok(CallToolResult::success(r))\n\x7d\n".toList

/-- A `set_value` function whose body holds a `validate_element` signature
whose opening brace is not followed by a newline, with the sole success
pattern on that same line.  On the first run `validate_element` does not
match (`\x7b\s*\n` needs a newline) while `set_value` does, and `set_value`'s
completion insertion places a newline right after `validate_element`'s brace
— so the second run matches and instruments `validate_element`. -/
def cexC1 : Buf :=
  "async fn set_value(a: V) -> Result<CallToolResult, McpError> \x7b\n    async fn validate_element(b: W) -> Result<CallToolResult, McpError> \x7b        Ok(CallToolResult::success(x))\n    \x7d\n\x7d\n".toList

/-- A nested-brace body for the Body Extractor witness. -/
def wC6 : Buf := "x\x7ba\x7bb\x7dc\x7dy".toList

/-- A buffer with one emitted span line, for the Attribute Emitter witness. -/
def wC7buf : Buf :=
  "    let mut span = StepSpan::new(\"delay\", None);\n    body();\n".toList

/-- A buffer with no tool function at all. -/
def wC8buf : Buf := "no functions here".toList

/-! ## Claim C6 -/

/-- Claim C6: for every function whose body end offset is resolved by the
brace scan, the opening and closing brace counts between the body start and
the returned end offset are equal, the depth starting at 1 reaches exactly 0
once the closing brace at the end offset is consumed, and the depth is never
negative at any position up to the end offset. -/
theorem claim_C6_brace_balance (content : Buf) (start e : Nat)
    (h : braceScan content start = some e) :
    (pySliceNat content start e).count lbrace =
      (pySliceNat content start e).count rbrace ∧
    (1 : Int) + ((pySliceNat content start (e + 1)).count lbrace : Int) -
      ((pySliceNat content start (e + 1)).count rbrace : Int) = 0 ∧
    (∀ k, start ≤ k → k ≤ e →
      (0 : Int) ≤ (1 : Int) + ((pySliceNat content start k).count lbrace : Int) -
        ((pySliceNat content start k).count rbrace : Int)) := by
  obtain ⟨h1, h2, h3, h4, h5⟩ := braceScanAux_spec (content.drop start) start 1 e h
    (Nat.le_refl 1)
  have hslice : ∀ b, pySliceNat content start b = (content.drop start).take (b - start) :=
    fun b => slice_as_take content start b
  refine ⟨?_, ?_, ?_⟩
  · rw [hslice]
    omega
  · rw [hslice]
    have hsub : e + 1 - start = (e - start) + 1 := by omega
    have hget : (content.drop start)[e - start]? = some rbrace := by
      rw [List.getElem?_eq_getElem h2]
      rw [List.getD_eq_getElem?_getD, List.getElem?_eq_getElem h2] at h5
      simpa using h5
    rw [hsub, List.take_succ, hget]
    have hbr : ¬(rbrace = lbrace) := by decide
    simp only [Option.toList_some, List.count_append, List.count_singleton,
      beq_iff_eq, if_neg hbr, if_pos rfl]
    push_cast
    omega
  · intro k hk1 hk2
    have := h4 (k - start) (by omega)
    rw [hslice]
    push_cast at this
    omega

/-- Witness for claim C6 at a concrete nested-brace body. -/
theorem claim_C6_witness :
    braceScan wC6 2 = some 7 ∧
    (pySliceNat wC6 2 7).count lbrace = (pySliceNat wC6 2 7).count rbrace :=
  ⟨by decide, (claim_C6_brace_balance wC6 2 7 (by decide)).1⟩

/-! ## Claim C8 -/

/-- Absent-signature entries leave `add_comprehensive_telemetry` inert. -/
theorem comp_absent_inert {content f : Buf}
    (h : finditerG (matchCompG f) content 0 = []) :
    add_comprehensive_telemetry content f = (content, false, [Outcome.notFound]) := by
  unfold add_comprehensive_telemetry
  rw [h]
  simp

/-- The batch fold over absent-only entries keeps the buffer and appends one
`notFound` report per entry, for any starting accumulator. -/
theorem compBatch_fold_absent :
    ∀ (config : List Buf) (content : Buf) (k : Nat) (acc : List (List Outcome)),
      (∀ n ∈ config, finditerG (matchCompG n) content 0 = []) →
      config.foldl (fun acc f =>
          let r := add_comprehensive_telemetry acc.1 f
          (r.1, acc.2.1 + (if r.2.1 then 1 else 0), acc.2.2 ++ [r.2.2]))
        (content, k, acc) =
      (content, k, acc ++ config.map fun _ => [Outcome.notFound]) := by
  intro config
  induction config with
  | nil => intro content k acc _; simp
  | cons n rest ih =>
    intro content k acc hconf
    rw [List.foldl_cons]
    have hn := comp_absent_inert (hconf n (List.mem_cons_self n rest))
    have hrest : ∀ x ∈ rest, finditerG (matchCompG x) content 0 = [] :=
      fun x hx => hconf x (List.mem_cons_of_mem n hx)
    simp only [hn]
    have ihr := ih content k (acc ++ [[Outcome.notFound]]) hrest
    simpa [List.append_assoc] using ihr

/-- Claim C8: a configuration entry whose signature pattern is absent yields a
`notFound` outcome and leaves the buffer untouched, and a batch whose every
entry is absent writes back a buffer byte-identical to the input while still
reporting each entry. -/
theorem claim_C8_notfound_isolation :
    (∀ content f, finditerG (matchCompG f) content 0 = [] →
      add_comprehensive_telemetry content f = (content, false, [Outcome.notFound])) ∧
    (∀ config content, (∀ n ∈ config, finditerG (matchCompG n) content 0 = []) →
      compBatch config content =
        (content, 0, config.map fun _ => [Outcome.notFound])) := by
  refine ⟨fun content f h => comp_absent_inert h, ?_⟩
  intro config content hconf
  unfold compBatch
  simpa using compBatch_fold_absent config content 0 [] hconf

/-- Witness for claim C8: a two-entry configuration over a buffer containing
no function at all. -/
theorem claim_C8_witness :
    compBatch ["delay".toList, "zoom_in".toList] wC8buf =
      (wC8buf, 0, [[Outcome.notFound], [Outcome.notFound]]) :=
  claim_C8_notfound_isolation.2 ["delay".toList, "zoom_in".toList] wC8buf (by decide)

/-! ## Claim C7 -/

/-- Claim C7: the Attribute Emitter is pure — each attribute's statement text
is a function of the attribute rule alone: the rendering of a plan splits
pointwise over the plan, and the text the enhancement script splices into any
buffer is exactly `remTCode attrs`, independent of the buffer content. -/
theorem claim_C7_deterministic_rendering :
    (∀ xs ys : List Buf, ((xs ++ ys).map renderRemAttr).flatten =
      (xs.map renderRemAttr).flatten ++ (ys.map renderRemAttr).flatten) ∧
    (∀ content attrs e, e ≤ content.length →
      containsSub remSetAttrMarker (pySliceNat content e (e + 200)) = false →
      pySliceNat (remProcessMatch content attrs e) e (e + (remTCode attrs).length) =
        remTCode attrs) := by
  constructor
  · intro xs ys
    rw [List.map_append, List.flatten_append]
  · intro content attrs e he hg
    unfold remProcessMatch
    rw [hg]
    simp only [Bool.false_eq_true, if_false]
    exact slice_splice he

/-- Witness for claim C7: a concrete buffer with an emitted span line and a
two-rule plan. -/
theorem claim_C7_witness :
    pySliceNat (remProcessMatch wC7buf ["selector".toList, "timeout_ms".toList] 49) 49
      (49 + (remTCode ["selector".toList, "timeout_ms".toList]).length) =
      remTCode ["selector".toList, "timeout_ms".toList] :=
  claim_C7_deterministic_rendering.2 wC7buf ["selector".toList, "timeout_ms".toList] 49
    (by decide) (by decide)

/-! ## Claim C9 -/

theorem replaceAllAux_of_not_contains {old new : Buf} :
    ∀ (fuel : Nat) (l : Buf), containsSub old l = false →
      replaceAllAux old new fuel l = l := by
  intro fuel
  induction fuel with
  | zero => intro l _; rfl
  | succ fuel ih =>
    intro l hl
    cases l with
    | nil => rfl
    | cons c rest =>
      unfold containsSub at hl
      rw [Bool.or_eq_false_iff] at hl
      rw [replaceAllAux, if_neg (by rw [hl.1]; exact fun h => Bool.noConfusion h)]
      rw [ih rest hl.2]

theorem replaceAllAux_boundary (old new : Buf) (hne : old ≠ []) :
    ∀ (pre : Buf) (fuel : Nat) (post : Buf), pre.length + 1 ≤ fuel →
      containsSub old (pre ++ old.dropLast) = false →
      containsSub old post = false →
      replaceAllAux old new fuel (pre ++ old ++ post) = pre ++ new ++ post := by
  intro pre
  induction pre with
  | nil =>
    intro fuel post hf h1 h2
    cases fuel with
    | zero => omega
    | succ f =>
      cases hold : old with
      | nil => exact absurd hold hne
      | cons o os =>
        subst hold
        simp only [List.nil_append, List.cons_append]
        rw [replaceAllAux]
        rw [if_pos (by simp [isPrefixOf_append_self (o :: os) post])]
        congr 1
        have hdrop : (o :: (os ++ post)).drop (o :: os).length = post := by
          simp [List.drop_left (o :: os) post]
        rw [hdrop]
        exact replaceAllAux_of_not_contains f post h2
  | cons c pre2 ih =>
    intro fuel post hf h1 h2
    cases fuel with
    | zero => omega
    | succ f =>
      have hlast : old.dropLast ++ [old.getLast hne] = old :=
        List.dropLast_append_getLast hne
      have hnotp : old.isPrefixOf ((c :: pre2) ++ old ++ post) = false := by
        cases hp : old.isPrefixOf ((c :: pre2) ++ old ++ post) with
        | false => rfl
        | true =>
          exfalso
          have hshape : (c :: pre2) ++ old ++ post =
              ((c :: pre2) ++ old.dropLast) ++ ([old.getLast hne] ++ post) := by
            rw [List.append_assoc, List.append_assoc, ← List.append_assoc old.dropLast,
              hlast]
          rw [hshape] at hp
          have hlen : old.length ≤ ((c :: pre2) ++ old.dropLast).length := by
            have hdl : old.dropLast.length = old.length - 1 := List.length_dropLast old
            have hpos : 1 ≤ old.length := by
              cases old with
              | nil => exact absurd rfl hne
              | cons a b => simp
            simp only [List.length_append, List.length_cons, hdl]
            omega
          have hpa := isPrefixOf_of_append_le hp hlen
          have hz := no_prefix_of_containsSub_false h1 0
          rw [List.drop_zero] at hz
          rw [hpa] at hz
          cases hz
      have hcond : ¬(old.isPrefixOf (c :: (pre2 ++ old ++ post)) = true) := by
        have hs : c :: (pre2 ++ old ++ post) = (c :: pre2) ++ old ++ post := by
          simp [List.cons_append]
        rw [hs, hnotp]
        exact fun h => Bool.noConfusion h
      simp only [List.cons_append]
      rw [replaceAllAux]
      rw [if_neg hcond]
      have h1' : containsSub old (pre2 ++ old.dropLast) = false := by
        have h1c := h1
        rw [List.cons_append] at h1c
        unfold containsSub at h1c
        rw [Bool.or_eq_false_iff] at h1c
        exact h1c.2
      have hi := ih f post (by simp at hf; omega) h1' h2
      rw [hi]

/-- Claim C9: applying the `toggled → state` correction rule to a buffer that
contains the previously emitted `toggled` statement exactly once rewrites
that statement to the `state` statement and leaves every other character of
the buffer unchanged; moreover the targeted literal is exactly the statement
the Attribute Emitter had rendered for `toggled`. -/
theorem claim_C9_schema_correction_frame (pre post : Buf)
    (h1 : containsSub toggledOld (pre ++ toggledOld.dropLast) = false)
    (h2 : containsSub toggledOld post = false) :
    fix_toggled (pre ++ toggledOld ++ post) = pre ++ toggledNew ++ post ∧
    renderRemAttr "toggled".toList = "\n        ".toList ++ toggledOld := by
  constructor
  · unfold fix_toggled replaceAll
    apply replaceAllAux_boundary toggledOld toggledNew (by decide) pre _ post ?_ h1 h2
    simp only [List.length_append]
    omega
  · decide

/-- Witness for claim C9 at a small concrete buffer. -/
theorem claim_C9_witness :
    fix_toggled ("A ".toList ++ toggledOld ++ " B".toList) =
      "A ".toList ++ toggledNew ++ " B".toList :=
  (claim_C9_schema_correction_frame "A ".toList " B".toList (by decide) (by decide)).1

/-! ## Helper lemmas shared by the comprehensive-script claims -/

theorem isPrefixOf_take_iff {n l : Buf} {k : Nat} :
    n.isPrefixOf (l.take k) = true ↔ n.isPrefixOf l = true ∧ n.length ≤ k := by
  constructor
  · intro h
    have hlen := length_le_of_isPrefixOf h
    rw [List.length_take] at hlen
    have hk : n.length ≤ k := by omega
    have ht := take_eq_of_isPrefixOf h
    rw [List.take_take] at ht
    have hmin : min n.length k = n.length := by omega
    rw [hmin] at ht
    exact ⟨isPrefixOf_of_take_eq ht, hk⟩
  · rintro ⟨h, hk⟩
    apply isPrefixOf_of_take_eq
    rw [List.take_take]
    have hmin : min n.length k = n.length := by omega
    rw [hmin]
    exact take_eq_of_isPrefixOf h

/-- When the guard is off, the comprehensive script's per-match step leaves
the attribute code spliced right after the signature, whatever the later
stages do. -/
theorem comp_insert_slice {content f : Buf} {e : Nat} (he : e ≤ content.length)
    (hg : compGuard content e = false) :
    pySliceNat (compProcessMatch content f e).1 e (e + (compTCode f).length) =
      compTCode f := by
  unfold compProcessMatch
  rw [hg]
  simp only [Bool.false_eq_true, if_false]
  split
  · exact slice_splice he
  · split
    · exact slice_splice he
    · split
      · exact slice_splice he
      · have hb : e + (compTCode f).length ≤
            (splice content e (compTCode f)).length := by
          rw [length_splice]
          omega
        rw [slice_splice_outside (by omega) hb]
        exact slice_splice he

/-- The span-creation line carries the instrumentation marker, whatever
follows it. -/
theorem containsSub_marker_spanLine_append (f b : Buf) :
    containsSub stepSpanMarker (spanLineB f ++ b) = true := by
  rw [spanLineB_decomp]
  have hm := containsSub_append_mid stepSpanMarker "        let mut span = ".toList
    (("(\"".toList ++ f ++ "\", None);\n".toList) ++ b)
  simpa [List.append_assoc] using hm

/-! ## Claim C10 -/

/-- Claim C10: the idempotency guard fires exactly when the span-creation
marker occurs wholly inside the 200-character window after the signature
match; and when it does not fire the engine splices the attribute code —
which itself contains a span-creation statement — right after the signature,
producing a second span-creation statement whenever the buffer already
carried one beyond the window. -/
theorem claim_C10_bounded_window :
    (∀ content e, compGuard content e = true ↔
      ∃ i, i + stepSpanMarker.length ≤ 200 ∧
        stepSpanMarker.isPrefixOf (content.drop (e + i)) = true) ∧
    (∀ content f e, e ≤ content.length → compGuard content e = false →
      pySliceNat (compProcessMatch content f e).1 e (e + (compTCode f).length) =
        compTCode f ∧
      containsSub stepSpanMarker (compTCode f) = true) := by
  constructor
  · intro content e
    unfold compGuard
    rw [containsSub_iff]
    constructor
    · rintro ⟨i, hi⟩
      rw [slice_as_take, Nat.add_sub_cancel_left] at hi
      have hcomm : ((content.drop e).take 200).drop i =
          ((content.drop e).drop i).take (200 - i) := by
        rw [← slice_as_take]
        rfl
      rw [hcomm, List.drop_drop] at hi
      rw [isPrefixOf_take_iff] at hi
      have hlen : stepSpanMarker.length = 13 := by decide
      have hi2 := hi.2
      exact ⟨i, by omega, hi.1⟩
    · rintro ⟨i, hle, hp⟩
      refine ⟨i, ?_⟩
      rw [slice_as_take, Nat.add_sub_cancel_left]
      have hcomm : ((content.drop e).take 200).drop i =
          ((content.drop e).drop i).take (200 - i) := by
        rw [← slice_as_take]
        rfl
      rw [hcomm, List.drop_drop]
      rw [isPrefixOf_take_iff]
      exact ⟨hp, by omega⟩
  · intro content f e he hg
    refine ⟨comp_insert_slice he hg, ?_⟩
    simp only [compTCode]
    exact containsSub_marker_spanLine_append f _

/-- Witness for claim C10: the marker of `wC10` hides more than 200
characters past the signature, the guard stays off, and the span-creation
code is inserted again. -/
theorem claim_C10_witness :
    compGuard wC10 59 = false ∧
    pySliceNat (compProcessMatch wC10 "delay".toList 59).1 59
      (59 + (compTCode "delay".toList).length) = compTCode "delay".toList :=
  ⟨by decide, (claim_C10_bounded_window.2 wC10 "delay".toList 59
    (by decide) (by decide)).1⟩

/-! ## Claim C4 (corrected) -/

/-- Counterexample to claim C4 as stated: `cexC4` carries the completion
marker `span.end()` inside the window the engine inspects before its selected
completion point, yet the function's buffer region is still modified — the
span-creation code is inserted because the completion-marker check only runs
after that insertion. -/
theorem claim_C4_counterexample :
    compGuard cexC4 66 = false ∧
    compOkPos cexC4 "delay".toList 66 = some 244 ∧
    containsSub spanEndMarker
      (pySliceInt (splice cexC4 66 (compTCode "delay".toList))
        ((244 : Int) - 100) (244 : Int)) = true ∧
    (add_comprehensive_telemetry cexC4 "delay".toList).2.2 = [Outcome.skippedEnd] ∧
    (add_comprehensive_telemetry cexC4 "delay".toList).1 ≠ cexC4 := by
  refine ⟨by decide, by decide, by decide, by decide, by decide⟩

/-- Claim C4 as amended: the span-creation marker check runs first and, when
it fires, the function's region is left completely unmodified; when it does
not fire, the span-creation insertion is applied regardless of any completion
marker — the completion-marker check, which runs after that insertion, only
suppresses the completion statement. -/
theorem claim_C4_guard_first_amended :
    (∀ content f e, compGuard content e = true →
      compProcessMatch content f e = (content, Outcome.skipped)) ∧
    (∀ content f e, e ≤ content.length → compGuard content e = false →
      pySliceNat (compProcessMatch content f e).1 e (e + (compTCode f).length) =
        compTCode f) := by
  constructor
  · intro content f e hg
    unfold compProcessMatch
    rw [hg]
    simp
  · intro content f e he hg
    exact comp_insert_slice he hg

/-- Witness for claim C4's amended statement: a guarded match is skipped
whole. -/
theorem claim_C4_witness :
    compProcessMatch wC1 "delay".toList 59 = (wC1, Outcome.skipped) :=
  claim_C4_guard_first_amended.1 wC1 "delay".toList 59 (by decide)

/-! ## Helper lemmas for the basic-script claims -/

/-- A guarded match list is processed without any buffer change, each match
reported skipped. -/
theorem basicLoop_all_skipped (f : Buf) :
    ∀ (l : List (Nat × Nat × Unit)) (content : Buf),
      (∀ m ∈ l, containsSub stepSpanMarker
        (pySliceNat content m.2.1 (m.2.1 + 200)) = true) →
      basicLoop f l content = (content, List.replicate l.length Outcome.skipped) := by
  intro l
  induction l with
  | nil => intro content _; rfl
  | cons m rest ih =>
    intro content hall
    obtain ⟨a, e, u⟩ := m
    have hg := hall (a, e, u) (List.mem_cons_self _ _)
    have hr : basicProcessMatch content f e = (content, Outcome.skipped, []) := by
      unfold basicProcessMatch
      rw [hg]
      simp
    have hrest : ∀ m2 ∈ rest, containsSub stepSpanMarker
        (pySliceNat content m2.2.1 (m2.2.1 + 200)) = true :=
      fun m2 hm2 => hall m2 (List.mem_cons_of_mem _ hm2)
    simp only [basicLoop, hr, ih content hrest, List.length_cons, List.replicate_succ]

/-- Once the basic script instruments (or partially instruments) a match, the
guard window right after the signature contains the marker. -/
theorem basic_marker_after {content f : Buf} {e : Nat} (he : e ≤ content.length)
    (hg : containsSub stepSpanMarker (pySliceNat content e (e + 200)) = false) :
    containsSub stepSpanMarker
      (pySliceNat (basicProcessMatch content f e).1 e (e + 200)) = true := by
  unfold basicProcessMatch
  rw [hg]
  simp only [Bool.false_eq_true, if_false]
  split
  · exact window_has_marker (drop_splice_self he)
  · rename_i fe hfe
    split
    · exact window_has_marker (drop_splice_self he)
    · rename_i st en k hlast
      have hbs := braceScan_bounds hfe
      have hmem := mem_of_getLast?_eq hlast
      have hb := finditerAux_mem_bounds hmem
      have hc1len : (splice content e (spanLineB f)).length =
          content.length + (spanLineB f).length := length_splice content e (spanLineB f)
      have hfclen : (pySliceNat (splice content e (spanLineB f))
          (e + (spanLineB f).length) fe).length =
          fe - (e + (spanLineB f).length) := by
        simp only [pySliceNat, List.length_drop, List.length_take, hc1len]
        omega
      rw [hfclen] at hb
      have hok1 : e ≤ e + (spanLineB f).length + st := by omega
      have hok2 : e + (spanLineB f).length + st ≤
          (splice content e (spanLineB f)).length := by omega
      apply window_has_marker
      rw [drop_splice_of_ge hok1 hok2, drop_splice_self he,
        take_append_of_le (by omega)]
      simp only [List.append_assoc]
      rfl

/-- Length of a buffer never shrinks under the basic per-match step. -/
theorem basicProcessMatch_length (content f : Buf) (e : Nat) :
    content.length ≤ (basicProcessMatch content f e).1.length := by
  unfold basicProcessMatch
  split
  · exact Nat.le_refl _
  · dsimp only
    split
    · rw [length_splice]; omega
    · split
      · rw [length_splice]; omega
      · rw [length_splice, length_splice]; omega

/-- The basic per-match step never changes the buffer below the match end. -/
theorem basicProcessMatch_take {content f : Buf} {e p : Nat} (h1 : p ≤ e)
    (h2 : e ≤ content.length) :
    ((basicProcessMatch content f e).1).take p = content.take p := by
  unfold basicProcessMatch
  split
  · rfl
  · dsimp only
    split
    · exact take_splice h1 (by omega)
    · split
      · exact take_splice h1 (by omega)
      · rename_i fe hfe st en k hlast
        have hc1len : (splice content e (spanLineB f)).length =
            content.length + (spanLineB f).length := length_splice content e (spanLineB f)
        rw [take_splice (by omega) (by omega)]
        exact take_splice h1 (by omega)

/-- Processing a match list whose offsets all lie at or above `p` leaves the
first `p` characters of the buffer untouched. -/
theorem basicLoop_take (f : Buf) :
    ∀ (l : List (Nat × Nat × Unit)) (content : Buf) (p : Nat),
      (∀ m ∈ l, p ≤ m.2.1 ∧ m.2.1 ≤ content.length) →
      ((basicLoop f l content).1).take p = content.take p := by
  intro l
  induction l with
  | nil => intro content p _; rfl
  | cons m rest ih =>
    intro content p hall
    obtain ⟨a, e, u⟩ := m
    obtain ⟨hp, he⟩ := hall (a, e, u) (List.mem_cons_self _ _)
    have hstep := basicProcessMatch_take (f := f) hp he
    have hlen := basicProcessMatch_length content f e
    have hrest : ∀ m2 ∈ rest, p ≤ m2.2.1 ∧
        m2.2.1 ≤ ((basicProcessMatch content f e).1).length := by
      intro m2 hm2
      obtain ⟨hp2, he2⟩ := hall m2 (List.mem_cons_of_mem _ hm2)
      exact ⟨hp2, by omega⟩
    simp only [basicLoop]
    rw [ih (basicProcessMatch content f e).1 p hrest, hstep]

/-! ## Claim C1 (corrected) -/

/-- Counterexample to claim C1 as stated: on `cexC1` the first batch run
reports `validate_element` as `notFound` (its brace is not followed by a
newline, so the signature pattern misses it), but the completion text spliced
for `set_value` puts a newline right after that brace — the second run then
matches and INSTRUMENTS `validate_element`, so the double-run output is not
byte-identical to the single-run output and the second run does not report
every function as skipped. -/
theorem claim_C1_counterexample :
    (runBasicBatch cexC1).2.getD 0 [] = [Outcome.notFound] ∧
    (runBasicBatch ((runBasicBatch cexC1).1)).2.getD 0 [] =
      [Outcome.instrumented] ∧
    (runBasicBatch ((runBasicBatch cexC1).1)).1 ≠ (runBasicBatch cexC1).1 := by
  refine ⟨by decide, by decide, by decide⟩

/-- A match is reported skipped precisely when the span-creation marker is in
its 200-character guard window (and a guarded match changes nothing). -/
theorem basic_skipped_iff (content f : Buf) (e : Nat) :
    (basicProcessMatch content f e).2.1 = Outcome.skipped ↔
      containsSub stepSpanMarker (pySliceNat content e (e + 200)) = true := by
  constructor
  · intro h
    cases hg : containsSub stepSpanMarker (pySliceNat content e (e + 200)) with
    | true => rfl
    | false =>
      exfalso
      unfold basicProcessMatch at h
      rw [hg] at h
      simp only [Bool.false_eq_true, if_false] at h
      cases hb : braceScan (splice content e (spanLineB f))
          (e + (spanLineB f).length) with
      | none => rw [hb] at h; simp at h
      | some fe =>
        rw [hb] at h
        dsimp only at h
        cases hl : (finditerG matchOkAt (pySliceNat (splice content e (spanLineB f))
            (e + (spanLineB f).length) fe) 0).getLast? with
        | none => rw [hl] at h; simp at h
        | some p =>
          obtain ⟨st, en, k⟩ := p
          rw [hl] at h
          simp at h
  · intro hg
    unfold basicProcessMatch
    rw [hg]
    simp

/-- Claim C1 as amended: a single run reports a signature match skipped if
and only if the span-creation marker sits in the 200-character guard window
after the match, and a guarded match leaves the buffer untouched; a run all
of whose matches are guarded returns the buffer byte-identical and reports
each match skipped; a match processed with the guard off ends up carrying the
marker inside exactly that window; and a function with no signature match is
reported `notFound` rather than skipped.  (Unconditional double-run
byte-identity fails: see the counterexample, where an insertion creates a new
signature match that the second run instruments.) -/
theorem claim_C1_idempotence_amended :
    (∀ content f e,
      ((basicProcessMatch content f e).2.1 = Outcome.skipped ↔
        containsSub stepSpanMarker (pySliceNat content e (e + 200)) = true) ∧
      (containsSub stepSpanMarker (pySliceNat content e (e + 200)) = true →
        basicProcessMatch content f e = (content, Outcome.skipped, []))) ∧
    (∀ content f ms, finditerG (matchBasicG f) content 0 = ms → ms ≠ [] →
      (ms.all fun m => containsSub stepSpanMarker
        (pySliceNat content m.2.1 (m.2.1 + 200))) = true →
      add_basic_telemetry content f =
        (content, List.replicate ms.length Outcome.skipped)) ∧
    (∀ content f e, e ≤ content.length →
      containsSub stepSpanMarker (pySliceNat content e (e + 200)) = false →
      containsSub stepSpanMarker
        (pySliceNat (basicProcessMatch content f e).1 e (e + 200)) = true) ∧
    (∀ content f, finditerG (matchBasicG f) content 0 = [] →
      add_basic_telemetry content f = (content, [Outcome.notFound])) := by
  refine ⟨?_, ?_, fun content f e he hg => basic_marker_after he hg, ?_⟩
  · intro content f e
    refine ⟨basic_skipped_iff content f e, fun hg => ?_⟩
    unfold basicProcessMatch
    rw [hg]
    simp
  · intro content f ms hms hne hall
    unfold add_basic_telemetry
    rw [hms, if_neg hne]
    rw [List.all_eq_true] at hall
    have hrev : ∀ m ∈ ms.reverse, containsSub stepSpanMarker
        (pySliceNat content m.2.1 (m.2.1 + 200)) = true :=
      fun m hm => hall m (List.mem_reverse.1 hm)
    rw [basicLoop_all_skipped f ms.reverse content hrev, List.length_reverse]
  · intro content f h
    unfold add_basic_telemetry
    rw [h]
    simp

/-- Witness for claim C1's amended statement: the already-instrumented buffer
`wC1` passes through unchanged, reported skipped. -/
theorem claim_C1_witness :
    add_basic_telemetry wC1 "delay".toList =
      (wC1, List.replicate
        (finditerG (matchBasicG "delay".toList) wC1 0).length Outcome.skipped) :=
  claim_C1_idempotence_amended.2.1 wC1 "delay".toList
    (finditerG (matchBasicG "delay".toList) wC1 0) rfl (by decide) (by decide)

/-! ## Claim C5 (corrected) -/

/-- Counterexample to claim C5 as stated: on `cexC5` the two insertions of
the single match are applied in ascending offset order — the span creation at
59 first, the completion at 112 on the already-grown buffer — not in
descending `start_offset` order. -/
theorem claim_C5_counterexample :
    ((basicProcessMatch cexC5 "delay".toList 59).2.2).map Prod.fst = [59, 112] ∧
    59 < 112 ∧
    (basicProcessMatch cexC5 "delay".toList 59).2.1 = Outcome.instrumented := by
  refine ⟨by decide, by decide, by decide⟩

/-- Claim C5 as amended: matches of one function are processed in descending
match order, and an insertion pass for a match never modifies the buffer
below the match's body start, so the offsets of matches processed later
(lower in the buffer) stay valid; within one match the span insertion comes
first at the lower offset and the completion offset is recomputed against the
updated buffer rather than the original. -/
theorem claim_C5_descending_amended :
    (∀ (content f : Buf) (e p : Nat), p ≤ e → e ≤ content.length →
      ((basicProcessMatch content f e).1).take p = content.take p) ∧
    (∀ (l : List (Nat × Nat × Unit)) (content f : Buf) (p : Nat),
      (∀ m ∈ l, p ≤ m.2.1 ∧ m.2.1 ≤ content.length) →
      ((basicLoop f l content).1).take p = content.take p) :=
  ⟨fun _ _ _ _ h1 h2 => basicProcessMatch_take h1 h2,
   fun l content f p h => basicLoop_take f l content p h⟩

/-- Witness for claim C5's amended statement at the concrete buffer. -/
theorem claim_C5_witness :
    ((basicLoop "delay".toList [(0, 59, ())] cexC5).1).take 59 = cexC5.take 59 :=
  claim_C5_descending_amended.2 [(0, 59, ())] cexC5 "delay".toList 59 (by decide)

/-! ## Claim C2 (corrected) -/

/-- Counterexample to claim C2 as stated: the line-based variant
(`add_telemetry_to_lines` of `add_all_telemetry.py`) inserts a completion
pair before EVERY success occurrence of the body — on `cexC2` (one occurrence
inside a conditional, one trailing) the output contains two `span.end()`
lines and the first of them precedes the first success occurrence. -/
theorem claim_C2_counterexample :
    ((add_telemetry_to_lines cexC2 "set_value".toList).filter
      fun l => containsSub spanEndMarker l).length = 2 ∧
    (add_telemetry_to_lines cexC2 "set_value".toList).findIdx
        (fun l => containsSub spanEndMarker l) <
      (add_telemetry_to_lines cexC2 "set_value".toList).findIdx
        (fun l => containsSub okSubMarker l) := by
  refine ⟨by decide, by decide⟩

/-- Claim C2 as amended: the offset-based engine
(`add_comprehensive_telemetry` of `add_telemetry_all_functions.py`) inserts
the completion statements only immediately before the last success occurrence
in source order — the returned buffer is exactly one splice at the last
occurrence's offset, which is maximal among all occurrences; the line-based
`add_all_telemetry.py` variant instead inserts before every occurrence. -/
theorem claim_C2_tiebreak_amended
    (content f : Buf) (e fe st en k : Nat) (ms : List (Nat × Nat × Nat))
    (hg : compGuard content e = false)
    (hfe : braceScan (splice content e (compTCode f))
      (e + (compTCode f).length) = some fe)
    (hms : finditerG matchOkAt
      (pySliceNat (splice content e (compTCode f)) (e + (compTCode f).length) fe) 0
      = ms)
    (hlast : ms.getLast? = some (st, en, k))
    (hcb : containsSub spanEndMarker
      (pySliceInt (splice content e (compTCode f))
        (((e + (compTCode f).length + st : Nat) : Int) - 100)
        ((e + (compTCode f).length + st : Nat) : Int)) = false) :
    compProcessMatch content f e =
      (splice (splice content e (compTCode f)) (e + (compTCode f).length + st)
        (endCode (((pySliceNat (splice content e (compTCode f))
            (e + (compTCode f).length) fe).drop st).take k)),
        Outcome.instrumented) ∧
    ∀ x ∈ ms, x.1 ≤ st := by
  constructor
  · unfold compProcessMatch
    rw [hg]
    simp only [Bool.false_eq_true, if_false]
    rw [hfe]
    dsimp only
    rw [hms, hlast]
    dsimp only
    rw [hcb]
    simp only [Bool.false_eq_true, if_false]
  · intro x hx
    subst hms
    exact finditerG_getLast_max hlast x hx

/-- Witness for claim C2's amended statement: on `wbuf` (early success inside
a conditional, canonical trailing success) the engine instruments before the
trailing occurrence. -/
theorem claim_C2_witness :
    (compProcessMatch wbuf "set_value".toList 63).2 = Outcome.instrumented := by
  have h := claim_C2_tiebreak_amended wbuf "set_value".toList 63 576 63 98 5
    [(25, 56, 1), (63, 98, 5)] (by decide) (by decide) (by decide) (by decide)
    (by decide)
  rw [h.1]

/-! ## Claim C3 (corrected) -/

/-- Counterexample to claim C3 as stated: the batch script
(`batch_add_telemetry.py`) searches its success pattern in a flat
20000-character window not bounded by the function body; on `cexC3` the
selected completion offset 177 lies past the located function's closing brace
at 161, and the completion text is indeed spliced there. -/
theorem claim_C3_counterexample :
    finditerG (matchBatchG "zoom_in".toList) cexC3 0 = [(0, 60, ())] ∧
    braceScan (splice cexC3 60 (batchTStart "zoom_in".toList))
      (60 + (batchTStart "zoom_in".toList).length) = some 161 ∧
    batchOkPos cexC3 "zoom_in".toList 60 = some 177 ∧
    161 < 177 ∧
    add_telemetry_to_function cexC3 "zoom_in".toList =
      splice (splice cexC3 60 (batchTStart "zoom_in".toList)) 177 batchTEnd := by
  refine ⟨by decide, by decide, by decide, by decide, by decide⟩

/-- Claim C3 as amended: for the brace-bounded engine
(`add_comprehensive_telemetry`), the selected completion offset lies strictly
after the body start and strictly before the body's closing brace; the
batch-script variant searches a fixed 20000-character window instead and can
select an offset past the closing brace. -/
theorem claim_C3_confinement_amended
    (content f : Buf) (e fe st en k : Nat) (ms : List (Nat × Nat × Nat))
    (hfe : braceScan (splice content e (compTCode f))
      (e + (compTCode f).length) = some fe)
    (hms : finditerG matchOkAt
      (pySliceNat (splice content e (compTCode f)) (e + (compTCode f).length) fe) 0
      = ms)
    (hlast : ms.getLast? = some (st, en, k)) :
    compOkPos content f e = some (e + (compTCode f).length + st) ∧
    e < e + (compTCode f).length + st ∧
    e + (compTCode f).length + st < fe := by
  have htlen : 0 < (compTCode f).length := by
    have h38 : ("        let mut span = StepSpan::new(\"".toList : Buf).length = 38 := by
      decide
    simp only [compTCode, spanLineB, List.length_append, h38]
    omega
  have hbs := braceScan_bounds hfe
  subst hms
  have hmem := mem_of_getLast?_eq hlast
  have hb := finditerAux_mem_bounds hmem
  have hc1len : (splice content e (compTCode f)).length =
      content.length + (compTCode f).length := length_splice content e (compTCode f)
  have hfclen : (pySliceNat (splice content e (compTCode f))
      (e + (compTCode f).length) fe).length = fe - (e + (compTCode f).length) := by
    simp only [pySliceNat, List.length_drop, List.length_take, hc1len]
    omega
  rw [hfclen] at hb
  refine ⟨?_, by omega, by omega⟩
  unfold compOkPos
  dsimp only
  rw [hfe]
  dsimp only
  rw [hlast]

/-- Witness for claim C3's amended statement on the two-occurrence buffer. -/
theorem claim_C3_witness :
    compOkPos wbuf "set_value".toList 63 =
      some (63 + (compTCode "set_value".toList).length + 63) ∧
    63 < 63 + (compTCode "set_value".toList).length + 63 ∧
    63 + (compTCode "set_value".toList).length + 63 < 576 :=
  claim_C3_confinement_amended wbuf "set_value".toList 63 576 63 98 5
    [(25, 56, 1), (63, 98, 5)] (by decide) (by decide) (by decide)

end Terminator
